import Mathlib

/-!
# Shallow embedding of `importer.py` (padel-feed-importer)

The importer downloads a gzipped CSV feed, iterates its rows, and maintains
four in-memory buffers (raw snapshots, products, offers, review-queue
entries) that are bulk-upserted to a remote store when they reach their
per-buffer thresholds, plus one final flush after the loop.

We embed the row-processing pipeline (the loop body of `main` and the final flush)
as explicit state passing over `SyncState`.  Network plumbing (HTTP fetch,
gzip, credentials) is out of scope; the remote `products` table is modelled
as the list of eans it currently holds, and every store write is recorded
in an event trace.  Python `float` on strings is modelled over `Rat` for
finite ASCII decimal literals (optional sign, fraction, exponent); IEEE
specials (`inf`/`nan`), digit-group underscores and non-ASCII digits are
outside the model.  A Python exception (the `ValueError` that
`float(...)` raises on an unparsable non-empty string) is modelled as
`Except.error`, which aborts the run before the final flush, exactly as an
uncaught exception does in `main`.
-/

namespace Importer

/-- One CSV record as produced by `csv.DictReader`: an association list from
column name to string value (`row.get(k)` is lookup returning `Option`). -/
abbrev FeedRecord := List (String × String)

/-- Model of `row.get(k)`: the first value bound to column `k`, if any. -/
def getField (row : FeedRecord) (k : String) : Option String :=
  (List.find? (fun p => p.1 == k) row).map (fun p => p.2)

/-- Python `str.strip()` with no argument: drop leading and trailing
whitespace.  Structural on the character list (ASCII whitespace). -/
def pyStrip (s : String) : String :=
  String.mk (((s.toList.dropWhile Char.isWhitespace).reverse.dropWhile Char.isWhitespace).reverse)

/-- Python `str.lower()` (ASCII case folding). -/
def pyLower (s : String) : String :=
  String.mk (s.toList.map Char.toLower)

/-- Python `a or b` for two optional strings, where `None` and `""` are
falsy: the left value when it is a non-empty string, otherwise the right. -/
def pyOrStr (a b : Option String) : Option String :=
  match a with
  | some s => if s = "" then b else some s
  | none => b

/-- Python `a or d` for an optional string against a string default
(used for `row.get("merchant_name") or "Padel Market"`). -/
def pyOrDefault (a : Option String) (d : String) : String :=
  match a with
  | some s => if s = "" then d else s
  | none => d

/-- Numeric value of a digit string (most significant first). -/
def digitsVal (cs : List Char) : Nat :=
  cs.foldl (fun a c => a * 10 + (c.toNat - 48)) 0

/-- Split a character list at the first occurrence of `c`, or `none` when
`c` does not occur. -/
def breakOn (c : Char) : List Char → Option (List Char × List Char)
  | [] => none
  | x :: xs =>
    if x = c then some ([], xs)
    else
      match breakOn c xs with
      | some (a, b) => some (x :: a, b)
      | none => none

/-- Strip one leading sign; `true` means negative. -/
def stripSign : List Char → Bool × List Char
  | '-' :: rest => (true, rest)
  | '+' :: rest => (false, rest)
  | cs => (false, cs)

/-- Mantissa of a Python float literal: `digits`, `digits.`, `digits.digits`
or `.digits` (at least one digit overall); the exact rational
`ip.fp = (ip * 10^|fp| + fp) / 10^|fp|`. -/
def parseMantissa (cs : List Char) : Option Rat :=
  match breakOn '.' cs with
  | none =>
    if cs ≠ [] ∧ cs.all Char.isDigit then some (digitsVal cs) else none
  | some (ip, fp) =>
    if (ip ≠ [] ∨ fp ≠ []) ∧ ip.all Char.isDigit ∧ fp.all Char.isDigit then
      some (mkRat (digitsVal ip * 10 ^ fp.length + digitsVal fp) (10 ^ fp.length))
    else none

/-- Scale a rational by a signed power of ten (`m * 10^e`). -/
def scaleByExp (v : Rat) (ev : Int) : Rat :=
  match ev with
  | Int.ofNat n => v * (10 : Rat) ^ n
  | Int.negSucc n => v * mkRat 1 (10 ^ (n + 1))

/-- Exponent part after `e`: optional sign then at least one digit. -/
def parseExponent (cs : List Char) : Option Int :=
  let (neg, ds) := stripSign cs
  if ds ≠ [] ∧ ds.all Char.isDigit then
    some (if neg then -(digitsVal ds : Int) else (digitsVal ds : Int))
  else none

/-- Python `float(s)` on finite ASCII decimal literals, as an exact
rational: surrounding whitespace stripped, optional sign, mantissa,
optional `e`/`E` exponent.  `none` models the `ValueError` raised on
anything else. -/
def pyFloat (s : String) : Option Rat :=
  let cs := (pyStrip s).toList.map Char.toLower
  let (neg, cs) := stripSign cs
  let mant : Option Rat :=
    match breakOn 'e' cs with
    | none => parseMantissa cs
    | some (m, e) =>
      match parseMantissa m, parseExponent e with
      | some mv, some ev => some (scaleByExp mv ev)
      | _, _ => none
  match mant with
  | none => none
  | some v => some (if neg then -v else v)

/-- Model of `float(x) or None` applied to a parsed price string: a zero result is
normalized to absent, a parse failure is a `ValueError`. -/
def parsedPrice (str : String) : Except Unit (Option Rat) :=
  match pyFloat str with
  | none => Except.error ()
  | some v => Except.ok (if v = 0 then none else some v)

/-- Model of `float(row.get("search_price") or row.get("store_price") or 0) or None`:
primary price field with fallback to the secondary when the primary is
absent or empty; when the whole chain is falsy (both fields absent or
empty), `float(0) = 0.0` which `or None` turns into absent. -/
def pricePyth (row : FeedRecord) : Except Unit (Option Rat) :=
  match pyOrStr (getField row "search_price") (getField row "store_price") with
  | none => Except.ok none
  | some str => if str = "" then Except.ok none else parsedPrice str

/-- Model of `(row.get("ean") or "").strip()`. -/
def eanOf (row : FeedRecord) : String :=
  pyStrip ((getField row "ean").getD "")

/-- Model of `(row.get("product_name") or "").strip()`. -/
def productNameOf (row : FeedRecord) : String :=
  pyStrip ((getField row "product_name").getD "")

/-- Model of `(row.get("brand_name") or "").strip() or None`. -/
def brandOf (row : FeedRecord) : Option String :=
  let b := pyStrip ((getField row "brand_name").getD "")
  if b = "" then none else some b

/-- Model of `str(row.get("in_stock") or "").strip().lower() in ["1","true","yes"]`. -/
def in_stockOf (row : FeedRecord) : Bool :=
  let sv := pyLower (pyStrip ((getField row "in_stock").getD ""))
  sv == "1" || sv == "true" || sv == "yes"

/-- A row of the `product_raw_feed` table. -/
structure RawRow where
  aw_product_id : String
  ean : String
  product_name : String
  raw_json : FeedRecord
deriving DecidableEq, Repr

/-- A row of the `products` table. -/
structure ProductRow where
  ean : String
  brand : Option String
  model : Option String
  model_year : Option String
  product_name : String
  updated_at : String
deriving DecidableEq, Repr

/-- A row of the `offers` table. -/
structure OfferRow where
  product_ean : String
  retailer : String
  network : String
  price : Option Rat
  currency : Option String
  in_stock : Bool
  affiliate_link : String
  last_seen : String
deriving DecidableEq, Repr

/-- A row of the `review_queue` table. -/
structure QueueRow where
  product_ean : String
  reason : String
deriving DecidableEq, Repr

/-- The raw-snapshot row built at lines 71-76: note `raw_json` carries the
whole original record. -/
def rawRowOf (row : FeedRecord) : RawRow :=
  { aw_product_id := pyStrip ((getField row "aw_product_id").getD "")
    ean := eanOf row
    product_name := productNameOf row
    raw_json := row }

/-- The product row built at lines 80-87. -/
def productRowOf (now : String) (row : FeedRecord) : ProductRow :=
  { ean := eanOf row
    brand := brandOf row
    model := none
    model_year := none
    product_name := productNameOf row
    updated_at := now }

/-- The offer row built at lines 90-99, given the already-parsed price. -/
def offerRowOf (now : String) (row : FeedRecord) (price : Option Rat) : OfferRow :=
  { product_ean := eanOf row
    retailer := pyStrip (pyOrDefault (getField row "merchant_name") "Padel Market")
    network := "awin"
    price := price
    currency :=
      (let c := pyStrip ((getField row "currency").getD "")
       if c = "" then none else some c)
    in_stock := in_stockOf row
    affiliate_link := pyStrip ((getField row "aw_deep_link").getD "")
    last_seen := now }

/-- One bulk write observed by the remote store. -/
inductive StoreEvent where
  | upsertRaw (rows : List RawRow)
  | upsertProduct (rows : List ProductRow)
  | upsertOffer (rows : List OfferRow)
  | upsertQueue (rows : List QueueRow)
deriving DecidableEq, Repr

/-- Model of `supabase_upsert`: `if not rows: return` — an empty flush performs no
write at all; otherwise one bulk write of the whole batch. -/
def supabase_upsert {α : Type} (mk : List α → StoreEvent) (rows : List α) :
    List StoreEvent :=
  if rows.isEmpty then [] else [mk rows]

/-- Model of the point lookup `supabase_select_one` on the `products`
table (query `ean=eq.` followed by the ean, `limit=1`) against a table
holding the given eans: the first row with that exact ean, if any. -/
def supabase_select_one (store : List String) (ean : String) : Option String :=
  (store.filter (fun e => e == ean)).head?

/-- The mutable state of the loop in `main`: the remote `products` table contents
(as the eans it holds), the four buffers, the processed-row counter, and the
trace of store writes performed so far. -/
structure SyncState where
  store : List String
  new_queue_rows : List QueueRow
  product_rows : List ProductRow
  offer_rows : List OfferRow
  raw_rows : List RawRow
  count : Nat
  trace : List StoreEvent
deriving DecidableEq, Repr

/-- The state at the top of `main`: empty buffers, zero count, no writes
yet; the remote `products` table already holds `store`. -/
def initState (store : List String) : SyncState :=
  { store := store, new_queue_rows := [], product_rows := [], offer_rows := []
    raw_rows := [], count := 0, trace := [] }

/-- Lines 71-108: append the four derived rows (the review-queue row only
when the point lookup finds no existing product with this ean). -/
def appendRow (now : String) (s : SyncState) (row : FeedRecord)
    (price : Option Rat) : SyncState :=
  let ean := eanOf row
  { s with
    raw_rows := s.raw_rows ++ [rawRowOf row]
    product_rows := s.product_rows ++ [productRowOf now row]
    offer_rows := s.offer_rows ++ [offerRowOf now row price]
    new_queue_rows := s.new_queue_rows ++
      (match supabase_select_one s.store ean with
       | some _ => []
       | none => [{ product_ean := ean, reason := "new_product" }]) }

/-- Lines 111-113: flush the raw buffer at threshold 500. -/
def flushRaw (s : SyncState) : SyncState :=
  if 500 ≤ s.raw_rows.length then
    { s with trace := s.trace ++ supabase_upsert StoreEvent.upsertRaw s.raw_rows
             raw_rows := [] }
  else s

/-- Lines 114-116: flush the product buffer at threshold 500.  The flushed
rows become visible in the remote `products` table. -/
def flushProduct (s : SyncState) : SyncState :=
  if 500 ≤ s.product_rows.length then
    { s with trace := s.trace ++ supabase_upsert StoreEvent.upsertProduct s.product_rows
             store := s.store ++ s.product_rows.map (fun p => p.ean)
             product_rows := [] }
  else s

/-- Lines 117-119: flush the offer buffer at threshold 500. -/
def flushOffer (s : SyncState) : SyncState :=
  if 500 ≤ s.offer_rows.length then
    { s with trace := s.trace ++ supabase_upsert StoreEvent.upsertOffer s.offer_rows
             offer_rows := [] }
  else s

/-- Lines 120-122: flush the review-queue buffer at threshold 100. -/
def flushQueue (s : SyncState) : SyncState :=
  if 100 ≤ s.new_queue_rows.length then
    { s with trace := s.trace ++ supabase_upsert StoreEvent.upsertQueue s.new_queue_rows
             new_queue_rows := [] }
  else s

/-- Lines 110-122: the four independent threshold checks, in source order. -/
def flushStep (s : SyncState) : SyncState :=
  flushQueue (flushOffer (flushProduct (flushRaw s)))

/-- One iteration of the loop at lines 58-122: bump the counter, skip on a
blank ean, otherwise build and buffer the four rows and run the threshold
flushes.  `float` raising `ValueError` on an unparsable non-empty price
string aborts the whole run (the exception escapes `main`), so the
resulting state is discarded and we surface `Except.error`. -/
def processRow (now : String) (s : SyncState) (row : FeedRecord) :
    Except String SyncState :=
  let s1 : SyncState := { s with count := s.count + 1 }
  if eanOf row = "" then Except.ok s1
  else
    match pricePyth row with
    | Except.error _ =>
      Except.error "ValueError: could not convert string to float"
    | Except.ok price => Except.ok (flushStep (appendRow now s1 row price))

/-- The whole `for row in reader` loop. -/
def processAll (now : String) : SyncState → List FeedRecord → Except String SyncState
  | s, [] => Except.ok s
  | s, row :: rest =>
    match processRow now s row with
    | Except.error e => Except.error e
    | Except.ok s₂ => processAll now s₂ rest

/-- Lines 124-128: the final flush of the four buffers, in source order
raw, product, offer, queue; `supabase_upsert` makes an empty flush a no-op.
The buffers go out of scope afterwards, so the state clears them; the rows
of the final product flush become visible in the remote table. -/
def finalFlush (s : SyncState) : SyncState :=
  { s with
    trace := s.trace ++ supabase_upsert StoreEvent.upsertRaw s.raw_rows
               ++ supabase_upsert StoreEvent.upsertProduct s.product_rows
               ++ supabase_upsert StoreEvent.upsertOffer s.offer_rows
               ++ supabase_upsert StoreEvent.upsertQueue s.new_queue_rows
    store := s.store ++ s.product_rows.map (fun p => p.ean)
    raw_rows := [], product_rows := [], offer_rows := [], new_queue_rows := [] }

/-- Model of `main` from the decoded records on: loop over every record, then the
final flush; an uncaught exception skips the final flush. -/
def runRows (now : String) (s : SyncState) (rows : List FeedRecord) :
    Except String SyncState :=
  (processAll now s rows).map finalFlush

/-- The raw-snapshot rows a store event carries. -/
def rawOfEvent : StoreEvent → List RawRow
  | StoreEvent.upsertRaw rs => rs
  | _ => []

/-- The product rows a store event carries. -/
def productOfEvent : StoreEvent → List ProductRow
  | StoreEvent.upsertProduct rs => rs
  | _ => []

/-- The offer rows a store event carries. -/
def offerOfEvent : StoreEvent → List OfferRow
  | StoreEvent.upsertOffer rs => rs
  | _ => []

/-- The review-queue rows a store event carries. -/
def queueOfEvent : StoreEvent → List QueueRow
  | StoreEvent.upsertQueue rs => rs
  | _ => []

/-- Concatenate what `f` extracts from each event of a trace. -/
def collect {α : Type} (f : StoreEvent → List α) : List StoreEvent → List α
  | [] => []
  | e :: tr => f e ++ collect f tr

/-- Every raw-snapshot row the run has produced: already written ones
(in trace order) followed by the still-buffered ones. -/
def rawOutputs (s : SyncState) : List RawRow :=
  collect rawOfEvent s.trace ++ s.raw_rows

/-- Every product row the run has produced. -/
def productOutputs (s : SyncState) : List ProductRow :=
  collect productOfEvent s.trace ++ s.product_rows

/-- Every offer row the run has produced. -/
def offerOutputs (s : SyncState) : List OfferRow :=
  collect offerOfEvent s.trace ++ s.offer_rows

/-- Every review-queue row the run has produced. -/
def queueOutputs (s : SyncState) : List QueueRow :=
  collect queueOfEvent s.trace ++ s.new_queue_rows

instance {ε α : Type} [DecidableEq ε] [DecidableEq α] : DecidableEq (Except ε α) :=
  fun a b =>
    match a, b with
    | Except.ok x, Except.ok y =>
      if h : x = y then isTrue (by rw [h]) else isFalse (by intro hc; cases hc; exact h rfl)
    | Except.error x, Except.error y =>
      if h : x = y then isTrue (by rw [h]) else isFalse (by intro hc; cases hc; exact h rfl)
    | Except.ok _, Except.error _ => isFalse (by intro hc; cases hc)
    | Except.error _, Except.ok _ => isFalse (by intro hc; cases hc)

lemma collect_append {α : Type} (f : StoreEvent → List α) (t₁ t₂ : List StoreEvent) :
    collect f (t₁ ++ t₂) = collect f t₁ ++ collect f t₂ := by
  induction t₁ with
  | nil => rfl
  | cons e tr ih => simp [collect, ih]

lemma supabase_upsert_nil {α : Type} (mk : List α → StoreEvent) :
    supabase_upsert mk [] = [] := rfl

lemma supabase_upsert_ne_nil {α : Type} (mk : List α → StoreEvent)
    (rows : List α) (h : rows ≠ []) : supabase_upsert mk rows = [mk rows] := by
  cases rows with
  | nil => exact absurd rfl h
  | cons a l => rfl

lemma flushRaw_of_lt {s : SyncState} (h : s.raw_rows.length < 500) : flushRaw s = s := by
  unfold flushRaw
  rw [if_neg (by omega)]

lemma flushRaw_of_ge {s : SyncState} (h : 500 ≤ s.raw_rows.length) :
    flushRaw s = { s with trace := s.trace ++ [StoreEvent.upsertRaw s.raw_rows]
                          raw_rows := [] } := by
  have hne : s.raw_rows ≠ [] := by
    intro hnil
    rw [hnil] at h
    simp at h
  unfold flushRaw
  rw [if_pos h, supabase_upsert_ne_nil _ _ hne]

lemma flushProduct_of_lt {s : SyncState} (h : s.product_rows.length < 500) :
    flushProduct s = s := by
  unfold flushProduct
  rw [if_neg (by omega)]

lemma flushProduct_of_ge {s : SyncState} (h : 500 ≤ s.product_rows.length) :
    flushProduct s = { s with trace := s.trace ++ [StoreEvent.upsertProduct s.product_rows]
                              store := s.store ++ s.product_rows.map (fun p => p.ean)
                              product_rows := [] } := by
  have hne : s.product_rows ≠ [] := by
    intro hnil
    rw [hnil] at h
    simp at h
  unfold flushProduct
  rw [if_pos h, supabase_upsert_ne_nil _ _ hne]

lemma flushOffer_of_lt {s : SyncState} (h : s.offer_rows.length < 500) :
    flushOffer s = s := by
  unfold flushOffer
  rw [if_neg (by omega)]

lemma flushOffer_of_ge {s : SyncState} (h : 500 ≤ s.offer_rows.length) :
    flushOffer s = { s with trace := s.trace ++ [StoreEvent.upsertOffer s.offer_rows]
                            offer_rows := [] } := by
  have hne : s.offer_rows ≠ [] := by
    intro hnil
    rw [hnil] at h
    simp at h
  unfold flushOffer
  rw [if_pos h, supabase_upsert_ne_nil _ _ hne]

lemma flushQueue_of_lt {s : SyncState} (h : s.new_queue_rows.length < 100) :
    flushQueue s = s := by
  unfold flushQueue
  rw [if_neg (by omega)]

lemma flushQueue_of_ge {s : SyncState} (h : 100 ≤ s.new_queue_rows.length) :
    flushQueue s = { s with trace := s.trace ++ [StoreEvent.upsertQueue s.new_queue_rows]
                            new_queue_rows := [] } := by
  have hne : s.new_queue_rows ≠ [] := by
    intro hnil
    rw [hnil] at h
    simp at h
  unfold flushQueue
  rw [if_pos h, supabase_upsert_ne_nil _ _ hne]

lemma select_one_eq_none_iff (store : List String) (ean : String) :
    supabase_select_one store ean = none ↔ ean ∉ store := by
  unfold supabase_select_one
  rw [List.head?_eq_none_iff]
  constructor
  · intro h hmem
    have hm : ean ∈ List.filter (fun e => e == ean) store := by
      rw [List.mem_filter]
      exact ⟨hmem, by simp⟩
    rw [h] at hm
    exact (List.not_mem_nil _) hm
  · intro h
    rw [List.filter_eq_nil_iff]
    intro a ha hbeq
    exact h (by rwa [show a = ean from by simpa using hbeq] at ha)

lemma rawOutputs_flushRaw (s : SyncState) : rawOutputs (flushRaw s) = rawOutputs s := by
  by_cases h : 500 ≤ s.raw_rows.length
  · rw [flushRaw_of_ge h]
    simp [rawOutputs, collect_append, collect, rawOfEvent]
  · rw [flushRaw_of_lt (by omega)]

lemma rawOutputs_flushProduct (s : SyncState) :
    rawOutputs (flushProduct s) = rawOutputs s := by
  by_cases h : 500 ≤ s.product_rows.length
  · rw [flushProduct_of_ge h]
    simp [rawOutputs, collect_append, collect, rawOfEvent]
  · rw [flushProduct_of_lt (by omega)]

lemma rawOutputs_flushOffer (s : SyncState) :
    rawOutputs (flushOffer s) = rawOutputs s := by
  by_cases h : 500 ≤ s.offer_rows.length
  · rw [flushOffer_of_ge h]
    simp [rawOutputs, collect_append, collect, rawOfEvent]
  · rw [flushOffer_of_lt (by omega)]

lemma rawOutputs_flushQueue (s : SyncState) :
    rawOutputs (flushQueue s) = rawOutputs s := by
  by_cases h : 100 ≤ s.new_queue_rows.length
  · rw [flushQueue_of_ge h]
    simp [rawOutputs, collect_append, collect, rawOfEvent]
  · rw [flushQueue_of_lt (by omega)]

lemma rawOutputs_flushStep (s : SyncState) : rawOutputs (flushStep s) = rawOutputs s := by
  unfold flushStep
  rw [rawOutputs_flushQueue, rawOutputs_flushOffer, rawOutputs_flushProduct,
    rawOutputs_flushRaw]

lemma productOutputs_flushRaw (s : SyncState) :
    productOutputs (flushRaw s) = productOutputs s := by
  by_cases h : 500 ≤ s.raw_rows.length
  · rw [flushRaw_of_ge h]
    simp [productOutputs, collect_append, collect, productOfEvent]
  · rw [flushRaw_of_lt (by omega)]

lemma productOutputs_flushProduct (s : SyncState) :
    productOutputs (flushProduct s) = productOutputs s := by
  by_cases h : 500 ≤ s.product_rows.length
  · rw [flushProduct_of_ge h]
    simp [productOutputs, collect_append, collect, productOfEvent]
  · rw [flushProduct_of_lt (by omega)]

lemma productOutputs_flushOffer (s : SyncState) :
    productOutputs (flushOffer s) = productOutputs s := by
  by_cases h : 500 ≤ s.offer_rows.length
  · rw [flushOffer_of_ge h]
    simp [productOutputs, collect_append, collect, productOfEvent]
  · rw [flushOffer_of_lt (by omega)]

lemma productOutputs_flushQueue (s : SyncState) :
    productOutputs (flushQueue s) = productOutputs s := by
  by_cases h : 100 ≤ s.new_queue_rows.length
  · rw [flushQueue_of_ge h]
    simp [productOutputs, collect_append, collect, productOfEvent]
  · rw [flushQueue_of_lt (by omega)]

lemma productOutputs_flushStep (s : SyncState) :
    productOutputs (flushStep s) = productOutputs s := by
  unfold flushStep
  rw [productOutputs_flushQueue, productOutputs_flushOffer, productOutputs_flushProduct,
    productOutputs_flushRaw]

lemma offerOutputs_flushRaw (s : SyncState) :
    offerOutputs (flushRaw s) = offerOutputs s := by
  by_cases h : 500 ≤ s.raw_rows.length
  · rw [flushRaw_of_ge h]
    simp [offerOutputs, collect_append, collect, offerOfEvent]
  · rw [flushRaw_of_lt (by omega)]

lemma offerOutputs_flushProduct (s : SyncState) :
    offerOutputs (flushProduct s) = offerOutputs s := by
  by_cases h : 500 ≤ s.product_rows.length
  · rw [flushProduct_of_ge h]
    simp [offerOutputs, collect_append, collect, offerOfEvent]
  · rw [flushProduct_of_lt (by omega)]

lemma offerOutputs_flushOffer (s : SyncState) :
    offerOutputs (flushOffer s) = offerOutputs s := by
  by_cases h : 500 ≤ s.offer_rows.length
  · rw [flushOffer_of_ge h]
    simp [offerOutputs, collect_append, collect, offerOfEvent]
  · rw [flushOffer_of_lt (by omega)]

lemma offerOutputs_flushQueue (s : SyncState) :
    offerOutputs (flushQueue s) = offerOutputs s := by
  by_cases h : 100 ≤ s.new_queue_rows.length
  · rw [flushQueue_of_ge h]
    simp [offerOutputs, collect_append, collect, offerOfEvent]
  · rw [flushQueue_of_lt (by omega)]

lemma offerOutputs_flushStep (s : SyncState) :
    offerOutputs (flushStep s) = offerOutputs s := by
  unfold flushStep
  rw [offerOutputs_flushQueue, offerOutputs_flushOffer, offerOutputs_flushProduct,
    offerOutputs_flushRaw]

lemma queueOutputs_flushRaw (s : SyncState) :
    queueOutputs (flushRaw s) = queueOutputs s := by
  by_cases h : 500 ≤ s.raw_rows.length
  · rw [flushRaw_of_ge h]
    simp [queueOutputs, collect_append, collect, queueOfEvent]
  · rw [flushRaw_of_lt (by omega)]

lemma queueOutputs_flushProduct (s : SyncState) :
    queueOutputs (flushProduct s) = queueOutputs s := by
  by_cases h : 500 ≤ s.product_rows.length
  · rw [flushProduct_of_ge h]
    simp [queueOutputs, collect_append, collect, queueOfEvent]
  · rw [flushProduct_of_lt (by omega)]

lemma queueOutputs_flushOffer (s : SyncState) :
    queueOutputs (flushOffer s) = queueOutputs s := by
  by_cases h : 500 ≤ s.offer_rows.length
  · rw [flushOffer_of_ge h]
    simp [queueOutputs, collect_append, collect, queueOfEvent]
  · rw [flushOffer_of_lt (by omega)]

lemma queueOutputs_flushQueue (s : SyncState) :
    queueOutputs (flushQueue s) = queueOutputs s := by
  by_cases h : 100 ≤ s.new_queue_rows.length
  · rw [flushQueue_of_ge h]
    simp [queueOutputs, collect_append, collect, queueOfEvent]
  · rw [flushQueue_of_lt (by omega)]

lemma queueOutputs_flushStep (s : SyncState) :
    queueOutputs (flushStep s) = queueOutputs s := by
  unfold flushStep
  rw [queueOutputs_flushQueue, queueOutputs_flushOffer, queueOutputs_flushProduct,
    queueOutputs_flushRaw]

lemma count_flushStep (s : SyncState) : (flushStep s).count = s.count := by
  unfold flushStep flushQueue flushOffer flushProduct flushRaw
  repeat' split
  all_goals rfl

/-- What the review-queue gains from one appended row. -/
def queueDelta (store : List String) (ean : String) : List QueueRow :=
  match supabase_select_one store ean with
  | some _ => []
  | none => [{ product_ean := ean, reason := "new_product" }]

lemma appendRow_eq (now : String) (s : SyncState) (row : FeedRecord)
    (price : Option Rat) :
    appendRow now s row price =
      { s with raw_rows := s.raw_rows ++ [rawRowOf row]
               product_rows := s.product_rows ++ [productRowOf now row]
               offer_rows := s.offer_rows ++ [offerRowOf now row price]
               new_queue_rows := s.new_queue_rows ++ queueDelta s.store (eanOf row) } := by
  unfold appendRow queueDelta
  rfl

lemma processRow_skip {now : String} {s : SyncState} {row : FeedRecord}
    (h : eanOf row = "") :
    processRow now s row = Except.ok { s with count := s.count + 1 } := by
  unfold processRow
  rw [if_pos h]

lemma processRow_go {now : String} {s : SyncState} {row : FeedRecord}
    {p : Option Rat} (h : eanOf row ≠ "") (hp : pricePyth row = Except.ok p) :
    processRow now s row =
      Except.ok (flushStep (appendRow now { s with count := s.count + 1 } row p)) := by
  unfold processRow
  rw [if_neg h, hp]

lemma processRow_raises {now : String} {s : SyncState} {row : FeedRecord}
    (h : eanOf row ≠ "") (hp : pricePyth row = Except.error ()) :
    processRow now s row =
      Except.error "ValueError: could not convert string to float" := by
  unfold processRow
  rw [if_neg h, hp]

lemma processRow_ok_inv {now : String} {s : SyncState} {row : FeedRecord}
    {s₂ : SyncState} (h : processRow now s row = Except.ok s₂) :
    (eanOf row = "" ∧ s₂ = { s with count := s.count + 1 }) ∨
    (eanOf row ≠ "" ∧ ∃ p, pricePyth row = Except.ok p ∧
      s₂ = flushStep (appendRow now { s with count := s.count + 1 } row p)) := by
  by_cases he : eanOf row = ""
  · left
    refine ⟨he, ?_⟩
    rw [processRow_skip he] at h
    cases h
    rfl
  · right
    refine ⟨he, ?_⟩
    cases hp : pricePyth row with
    | error e =>
      cases e
      rw [processRow_raises he hp] at h
      cases h
    | ok p =>
      refine ⟨p, rfl, ?_⟩
      rw [processRow_go he hp] at h
      cases h
      rfl

lemma rawOutputs_appendRow (now : String) (s : SyncState) (row : FeedRecord)
    (p : Option Rat) :
    rawOutputs (appendRow now s row p) = rawOutputs s ++ [rawRowOf row] := by
  rw [appendRow_eq]
  simp [rawOutputs, List.append_assoc]

lemma productOutputs_appendRow (now : String) (s : SyncState) (row : FeedRecord)
    (p : Option Rat) :
    productOutputs (appendRow now s row p) = productOutputs s ++ [productRowOf now row] := by
  rw [appendRow_eq]
  simp [productOutputs, List.append_assoc]

lemma offerOutputs_appendRow (now : String) (s : SyncState) (row : FeedRecord)
    (p : Option Rat) :
    offerOutputs (appendRow now s row p) = offerOutputs s ++ [offerRowOf now row p] := by
  rw [appendRow_eq]
  simp [offerOutputs, List.append_assoc]

lemma queueOutputs_appendRow (now : String) (s : SyncState) (row : FeedRecord)
    (p : Option Rat) :
    queueOutputs (appendRow now s row p) =
      queueOutputs s ++ queueDelta s.store (eanOf row) := by
  rw [appendRow_eq]
  simp [queueOutputs, List.append_assoc]

lemma count_appendRow (now : String) (s : SyncState) (row : FeedRecord)
    (p : Option Rat) : (appendRow now s row p).count = s.count := by
  rw [appendRow_eq]

/-- The full effect of one successful, non-skipped loop iteration on the
rows produced so far: each of the four streams gains exactly the row built
from this record (the review queue only when the lookup misses). -/
lemma processRow_outputs {now : String} {s : SyncState} {row : FeedRecord}
    {s₂ : SyncState} (he : eanOf row ≠ "")
    (h : processRow now s row = Except.ok s₂) :
    ∃ p, pricePyth row = Except.ok p ∧
      rawOutputs s₂ = rawOutputs s ++ [rawRowOf row] ∧
      productOutputs s₂ = productOutputs s ++ [productRowOf now row] ∧
      offerOutputs s₂ = offerOutputs s ++ [offerRowOf now row p] ∧
      queueOutputs s₂ = queueOutputs s ++ queueDelta s.store (eanOf row) := by
  rcases processRow_ok_inv h with ⟨he2, _⟩ | ⟨_, p, hp, hs⟩
  · exact absurd he2 he
  · refine ⟨p, hp, ?_, ?_, ?_, ?_⟩ <;> rw [hs]
    · rw [rawOutputs_flushStep, rawOutputs_appendRow]
      rfl
    · rw [productOutputs_flushStep, productOutputs_appendRow]
      rfl
    · rw [offerOutputs_flushStep, offerOutputs_appendRow]
      rfl
    · rw [queueOutputs_flushStep, queueOutputs_appendRow]
      rfl

lemma processRow_count {now : String} {s : SyncState} {row : FeedRecord}
    {s₂ : SyncState} (h : processRow now s row = Except.ok s₂) :
    s₂.count = s.count + 1 := by
  rcases processRow_ok_inv h with ⟨_, hs⟩ | ⟨_, p, _, hs⟩
  · rw [hs]
  · rw [hs, count_flushStep, count_appendRow]

/-- Concrete record with a blank (whitespace-only) ean. -/
def blankRow : FeedRecord := [("ean", "   ")]

/-- Concrete record with ean `E` and no other fields. -/
def exRow : FeedRecord := [("ean", "E")]

/-- State after processing `exRow` from `initState []`. -/
def exS1 : SyncState :=
  { store := []
    new_queue_rows := [{ product_ean := "E", reason := "new_product" }]
    product_rows := [productRowOf "t" exRow]
    offer_rows := [offerRowOf "t" exRow none]
    raw_rows := [rawRowOf exRow]
    count := 1
    trace := [] }

/-- C2: a feed record whose identifier is empty or blank after trimming
produces no output row in any of the four streams — the resulting state is
the input state with only the processed-row counter bumped — while every
processed record (skipped or not) increments the counter, which the final
flush then leaves untouched. -/
theorem c2_blank_identifier_skipped_but_counted :
    (∀ (now : String) (s : SyncState) (row : FeedRecord), eanOf row = "" →
      processRow now s row = Except.ok { s with count := s.count + 1 }) ∧
    (∀ (now : String) (s : SyncState) (row : FeedRecord) (s₂ : SyncState),
      eanOf row = "" → processRow now s row = Except.ok s₂ →
      rawOutputs s₂ = rawOutputs s ∧ productOutputs s₂ = productOutputs s ∧
      offerOutputs s₂ = offerOutputs s ∧ queueOutputs s₂ = queueOutputs s ∧
      s₂.count = s.count + 1) ∧
    (∀ (now : String) (s : SyncState) (row : FeedRecord) (s₂ : SyncState),
      processRow now s row = Except.ok s₂ → s₂.count = s.count + 1) ∧
    (∀ s : SyncState, (finalFlush s).count = s.count) := by
  refine ⟨?_, ?_, ?_, ?_⟩
  · intro now s row h
    exact processRow_skip h
  · intro now s row s₂ h hok
    rw [processRow_skip h] at hok
    cases hok
    exact ⟨rfl, rfl, rfl, rfl, rfl⟩
  · intro now s row s₂ hok
    exact processRow_count hok
  · intro s
    rfl

/-- C2 witness: the blank-ean record, processed from the initial state. -/
theorem c2_witness :
    processRow "t" (initState []) blankRow =
        Except.ok { initState [] with count := (initState []).count + 1 } ∧
      (rawOutputs { initState [] with count := 1 } = rawOutputs (initState []) ∧
        productOutputs { initState [] with count := 1 } = productOutputs (initState []) ∧
        offerOutputs { initState [] with count := 1 } = offerOutputs (initState []) ∧
        queueOutputs { initState [] with count := 1 } = queueOutputs (initState []) ∧
        ({ initState [] with count := 1 } : SyncState).count = (initState []).count + 1) := by
  refine ⟨?_, ?_⟩
  · exact c2_blank_identifier_skipped_but_counted.1 "t" (initState []) blankRow (by decide)
  · exact c2_blank_identifier_skipped_but_counted.2.1 "t" (initState []) blankRow
      { initState [] with count := 1 } (by decide) (by decide)

/-- C3: the raw snapshot built for a record carries the entire original
field mapping verbatim in `raw_json` (a round trip), and every successful
non-skipped iteration emits exactly that snapshot on the raw stream. -/
theorem c3_raw_snapshot_roundtrip :
    (∀ row : FeedRecord, (rawRowOf row).raw_json = row) ∧
    (∀ (now : String) (s : SyncState) (row : FeedRecord) (s₂ : SyncState),
      eanOf row ≠ "" → processRow now s row = Except.ok s₂ →
      rawOutputs s₂ = rawOutputs s ++ [rawRowOf row]) := by
  refine ⟨fun row => rfl, ?_⟩
  intro now s row s₂ he hok
  obtain ⟨p, _, hraw, _⟩ := processRow_outputs he hok
  exact hraw

/-- C3 witness: processing `exRow` from the initial state appends the
snapshot whose payload is `exRow` itself. -/
theorem c3_witness :
    (rawRowOf exRow).raw_json = exRow ∧
      rawOutputs exS1 = rawOutputs (initState []) ++ [rawRowOf exRow] :=
  ⟨c3_raw_snapshot_roundtrip.1 exRow,
    c3_raw_snapshot_roundtrip.2 "t" (initState []) exRow exS1 (by decide) (by decide)⟩

/-- C4: for a non-skipped record, a review-queue entry with reason exactly
`new_product` is enqueued if and only if the point lookup
`supabase_select_one` against the product store finds no row with that ean
at the moment of the check; and the lookup misses exactly when the ean is
not in the store. -/
theorem c4_review_queue_iff_lookup_misses :
    (∀ (now : String) (s : SyncState) (row : FeedRecord) (s₂ : SyncState),
      eanOf row ≠ "" → processRow now s row = Except.ok s₂ →
      ((queueOutputs s₂ = queueOutputs s ++
          [{ product_ean := eanOf row, reason := "new_product" }]) ↔
        supabase_select_one s.store (eanOf row) = none) ∧
      (supabase_select_one s.store (eanOf row) ≠ none →
        queueOutputs s₂ = queueOutputs s)) ∧
    (∀ (store : List String) (ean : String),
      supabase_select_one store ean = none ↔ ean ∉ store) := by
  constructor
  · intro now s row s₂ he hok
    obtain ⟨p, _, _, _, _, hqueue⟩ := processRow_outputs he hok
    cases hsel : supabase_select_one s.store (eanOf row) with
    | none =>
      simp only [queueDelta, hsel] at hqueue
      constructor
      · constructor
        · intro _
          rfl
        · intro _
          exact hqueue
      · intro hne
        exact absurd rfl hne
    | some x =>
      simp only [queueDelta, hsel] at hqueue
      rw [List.append_nil] at hqueue
      constructor
      · constructor
        · intro habs
          rw [hqueue] at habs
          have := congrArg List.length habs
          simp at this
        · intro habs
          cases habs
      · intro _
        exact hqueue
  · exact select_one_eq_none_iff

/-- C4 witness: from an empty store the lookup for `E` misses and the
entry is enqueued. -/
theorem c4_witness :
    ((queueOutputs exS1 = queueOutputs (initState []) ++
        [{ product_ean := eanOf exRow, reason := "new_product" }]) ↔
      supabase_select_one (initState []).store (eanOf exRow) = none) ∧
    (supabase_select_one (initState []).store (eanOf exRow) ≠ none →
      queueOutputs exS1 = queueOutputs (initState [])) :=
  c4_review_queue_iff_lookup_misses.1 "t" (initState []) exRow exS1 (by decide) (by decide)

/-- C7: the four rows built from one feed record all carry the trimmed
ean of that record as their identifier, and the two rows that carry a timestamp
(`products.updated_at`, `offers.last_seen`) both carry the run timestamp. -/
theorem c7_rows_share_ean_and_timestamp :
    ∀ (now : String) (s : SyncState) (row : FeedRecord) (s₂ : SyncState),
      eanOf row ≠ "" → processRow now s row = Except.ok s₂ →
      ∃ p, pricePyth row = Except.ok p ∧
        rawOutputs s₂ = rawOutputs s ++ [rawRowOf row] ∧
        productOutputs s₂ = productOutputs s ++ [productRowOf now row] ∧
        offerOutputs s₂ = offerOutputs s ++ [offerRowOf now row p] ∧
        (rawRowOf row).ean = eanOf row ∧
        (productRowOf now row).ean = eanOf row ∧
        (offerRowOf now row p).product_ean = eanOf row ∧
        (productRowOf now row).updated_at = now ∧
        (offerRowOf now row p).last_seen = now ∧
        (∀ q ∈ queueOutputs s₂, q ∈ queueOutputs s ∨
          (q.product_ean = eanOf row ∧ q.reason = "new_product")) := by
  intro now s row s₂ he hok
  obtain ⟨p, hp, hraw, hprod, hoff, hqueue⟩ := processRow_outputs he hok
  refine ⟨p, hp, hraw, hprod, hoff, rfl, rfl, rfl, rfl, rfl, ?_⟩
  intro q hq
  rw [hqueue] at hq
  rcases List.mem_append.mp hq with hq1 | hq2
  · exact Or.inl hq1
  · right
    unfold queueDelta at hq2
    cases hsel : supabase_select_one s.store (eanOf row) with
    | none =>
      rw [hsel] at hq2
      rcases List.mem_singleton.mp hq2 with rfl
      exact ⟨rfl, rfl⟩
    | some x =>
      rw [hsel] at hq2
      cases hq2

/-- C7 witness: the rows built from `exRow` share ean `E` and timestamp. -/
theorem c7_witness :
    ∃ p, pricePyth exRow = Except.ok p ∧
      rawOutputs exS1 = rawOutputs (initState []) ++ [rawRowOf exRow] ∧
      productOutputs exS1 = productOutputs (initState []) ++ [productRowOf "t" exRow] ∧
      offerOutputs exS1 = offerOutputs (initState []) ++ [offerRowOf "t" exRow p] ∧
      (rawRowOf exRow).ean = eanOf exRow ∧
      (productRowOf "t" exRow).ean = eanOf exRow ∧
      (offerRowOf "t" exRow p).product_ean = eanOf exRow ∧
      (productRowOf "t" exRow).updated_at = "t" ∧
      (offerRowOf "t" exRow p).last_seen = "t" ∧
      (∀ q ∈ queueOutputs exS1, q ∈ queueOutputs (initState []) ∨
        (q.product_ean = eanOf exRow ∧ q.reason = "new_product")) :=
  c7_rows_share_ean_and_timestamp "t" (initState []) exRow exS1 (by decide) (by decide)

/-- Helper for C8: a present parsed price is never zero, because
`float(x) or None` turns an exact zero into `None`. -/
lemma pricePyth_ok_some_ne_zero {row : FeedRecord} {v : Rat}
    (h : pricePyth row = Except.ok (some v)) : v ≠ 0 := by
  cases hsel : pyOrStr (getField row "search_price") (getField row "store_price") with
  | none =>
    simp only [pricePyth, hsel] at h
    exact absurd h (by simp)
  | some str =>
    simp only [pricePyth, hsel] at h
    by_cases hstr : str = ""
    · rw [if_pos hstr] at h
      cases h
    · rw [if_neg hstr] at h
      cases hf : pyFloat str with
      | none =>
        simp only [parsedPrice, hf] at h
        exact absurd h (by simp)
      | some w =>
        simp only [parsedPrice, hf] at h
        by_cases hw : w = 0
        · rw [if_pos hw] at h
          cases h
        · rw [if_neg hw] at h
          cases h
          exact hw

/-- C8 (amended): every offer row a loop iteration produces has a price
that is either absent or a non-zero decimal; the code never stores an
exact zero, but it applies no lower bound, so a negative feed price is
stored as such. -/
theorem c8_price_absent_or_nonzero :
    ∀ (now : String) (s : SyncState) (row : FeedRecord) (s₂ : SyncState),
      processRow now s row = Except.ok s₂ →
      ∀ o ∈ offerOutputs s₂, o ∈ offerOutputs s ∨ o.price = none ∨
        ∃ v, o.price = some v ∧ v ≠ 0 := by
  intro now s row s₂ hok o ho
  rcases processRow_ok_inv hok with ⟨_, hs⟩ | ⟨he, p, hp, hs⟩
  · rw [hs] at ho
    exact Or.inl ho
  · rw [hs, offerOutputs_flushStep, offerOutputs_appendRow] at ho
    rcases List.mem_append.mp ho with h1 | h2
    · exact Or.inl h1
    · rcases List.mem_singleton.mp h2 with rfl
      cases p with
      | none =>
        right
        left
        rfl
      | some v =>
        right
        right
        exact ⟨v, rfl, pricePyth_ok_some_ne_zero hp⟩

/-- C8 witness: the offer built from `exRow` (no price fields) has an
absent price. -/
theorem c8_witness :
    offerRowOf "t" exRow none ∈ offerOutputs (initState []) ∨
      (offerRowOf "t" exRow none).price = none ∨
      ∃ v, (offerRowOf "t" exRow none).price = some v ∧ v ≠ 0 :=
  c8_price_absent_or_nonzero "t" (initState []) exRow exS1 (by decide)
    (offerRowOf "t" exRow none) (by decide)

/-- C8 counterexample: a feed row with ean `E` and `search_price` `-5`
produces an offer whose price is present and negative, refuting
"absent or a decimal greater than or equal to zero". -/
theorem c8_counterexample :
    (runRows "t" (initState ["E"]) [[("ean", "E"), ("search_price", "-5")]]).map
        (fun s => (offerOutputs s).map (fun o => o.price)) =
      Except.ok [some (-5 : Rat)] ∧ (-5 : Rat) < 0 :=
  ⟨by decide, by norm_num⟩

/-- C1 (amended): the offer price comes from the primary price field
`search_price`, falling back to the secondary `store_price` when the
primary is absent or empty; the selected string is parsed as a decimal and
an exact zero is normalized to absent (so primary `""` with secondary
`"12.50"` yields `12.50`, and primary `"0"` yields absent, never `0.0`);
when both fields are absent or empty the price is absent; but an
unparsable non-empty selected string is not normalized to absent — it
raises a `ValueError` that aborts the run. -/
theorem c1_price_fallback :
    (∀ (row : FeedRecord) (p : String), getField row "search_price" = some p →
      p ≠ "" → pricePyth row = parsedPrice p) ∧
    (∀ (row : FeedRecord) (q : String),
      (getField row "search_price" = none ∨ getField row "search_price" = some "") →
      getField row "store_price" = some q → q ≠ "" → pricePyth row = parsedPrice q) ∧
    (∀ row : FeedRecord,
      (getField row "search_price" = none ∨ getField row "search_price" = some "") →
      (getField row "store_price" = none ∨ getField row "store_price" = some "") →
      pricePyth row = Except.ok none) ∧
    (∀ (str : String) (v : Rat), pyFloat str = some v →
      parsedPrice str = Except.ok (if v = 0 then none else some v)) ∧
    (∀ str : String, pyFloat str = none → parsedPrice str = Except.error ()) ∧
    (∀ (now : String) (s : SyncState) (row : FeedRecord) (s₂ : SyncState),
      eanOf row ≠ "" → processRow now s row = Except.ok s₂ →
      ∃ o, offerOutputs s₂ = offerOutputs s ++ [o] ∧
        Except.ok o.price = pricePyth row) ∧
    (∀ (now : String) (s : SyncState) (row : FeedRecord),
      eanOf row ≠ "" → pricePyth row = Except.error () →
      processRow now s row =
        Except.error "ValueError: could not convert string to float") ∧
    pricePyth [("ean", "E"), ("search_price", ""), ("store_price", "12.50")] =
      Except.ok (some (25/2 : Rat)) ∧
    pricePyth [("ean", "E"), ("search_price", "0")] = Except.ok none := by
  refine ⟨?_, ?_, ?_, ?_, ?_, ?_, ?_, ?_, ?_⟩
  · intro row p hget hne
    simp only [pricePyth, pyOrStr, hget, if_neg hne]
  · intro row q hprim hsec hne
    rcases hprim with h1 | h1 <;> simp [pricePyth, pyOrStr, h1, hsec, hne]
  · intro row hprim hsec
    rcases hprim with h1 | h1 <;> rcases hsec with h2 | h2 <;>
      simp [pricePyth, pyOrStr, h1, h2]
  · intro str v hf
    simp only [parsedPrice, hf]
  · intro str hf
    simp only [parsedPrice, hf]
  · intro now s row s₂ he hok
    obtain ⟨p, hp, _, _, hoff, _⟩ := processRow_outputs he hok
    refine ⟨offerRowOf now row p, hoff, ?_⟩
    rw [hp]
    rfl
  · intro now s row he hp
    exact processRow_raises he hp
  · have h1 : pricePyth [("ean", "E"), ("search_price", ""), ("store_price", "12.50")] =
        Except.ok (some (mkRat 1250 100)) := by decide
    have h2 : mkRat 1250 100 = (25/2 : Rat) := by norm_num [mkRat]
    rw [h1, h2]
  · decide

/-- C1 witness: the fallback conjunct applied to the example from the
spec, primary `""` with secondary `"12.50"`. -/
theorem c1_witness :
    pricePyth [("ean", "E"), ("search_price", ""), ("store_price", "12.50")] =
      parsedPrice "12.50" :=
  c1_price_fallback.2.1 [("ean", "E"), ("search_price", ""), ("store_price", "12.50")]
    "12.50" (Or.inr (by decide)) (by decide) (by decide)

/-- C1 counterexample: a record whose selected price string is a
non-empty unparsable value (`"abc"`) does not get an absent price — the
run aborts with a `ValueError` and produces no offer at all. -/
theorem c1_counterexample :
    runRows "t" (initState []) [[("ean", "E"), ("search_price", "abc")]] =
      Except.error "ValueError: could not convert string to float" := by
  decide

/-- C6: after the loop, the final flush writes the four buffers in the
fixed source order raw, product, offer, queue; the flush of an empty buffer is
a no-op (`supabase_upsert` returns without writing on empty input, so an
all-empty final flush writes nothing); and `runRows` performs the final
flush exactly once, after the loop. -/
theorem c6_final_flush_order_and_empty_noop :
    (∀ (α : Type) (mk : List α → StoreEvent), supabase_upsert mk [] = []) ∧
    (∀ (now : String) (s : SyncState) (rows : List FeedRecord),
      runRows now s rows = (processAll now s rows).map finalFlush) ∧
    (∀ (now : String) (s : SyncState),
      runRows now s [] = Except.ok (finalFlush s)) ∧
    (∀ s : SyncState, s.raw_rows ≠ [] → s.product_rows ≠ [] →
      s.offer_rows ≠ [] → s.new_queue_rows ≠ [] →
      (finalFlush s).trace = s.trace ++ [StoreEvent.upsertRaw s.raw_rows,
        StoreEvent.upsertProduct s.product_rows, StoreEvent.upsertOffer s.offer_rows,
        StoreEvent.upsertQueue s.new_queue_rows]) ∧
    (∀ s : SyncState, s.raw_rows = [] → s.product_rows = [] →
      s.offer_rows = [] → s.new_queue_rows = [] →
      (finalFlush s).trace = s.trace) := by
  refine ⟨fun α mk => rfl, fun now s rows => rfl, fun now s => rfl, ?_, ?_⟩
  · intro s h1 h2 h3 h4
    unfold finalFlush
    rw [supabase_upsert_ne_nil _ _ h1, supabase_upsert_ne_nil _ _ h2,
      supabase_upsert_ne_nil _ _ h3, supabase_upsert_ne_nil _ _ h4]
    simp
  · intro s h1 h2 h3 h4
    unfold finalFlush
    rw [h1, h2, h3, h4]
    simp [supabase_upsert]

/-- C6 witness: a state with all four buffers non-empty flushes them in
order, and the final flush of the initial state writes nothing. -/
theorem c6_witness :
    (finalFlush exS1).trace = exS1.trace ++ [StoreEvent.upsertRaw exS1.raw_rows,
        StoreEvent.upsertProduct exS1.product_rows, StoreEvent.upsertOffer exS1.offer_rows,
        StoreEvent.upsertQueue exS1.new_queue_rows] ∧
      (finalFlush (initState [])).trace = (initState []).trace :=
  ⟨c6_final_flush_order_and_empty_noop.2.2.2.1 exS1
      (by decide) (by decide) (by decide) (by decide),
    c6_final_flush_order_and_empty_noop.2.2.2.2 (initState []) rfl rfl rfl rfl⟩

/-- C9: the per-row novelty lookup reads only the remote store field, not
the in-memory product buffer, so a single run whose feed repeats a
previously-unseen ean (here `E`, twice, against an empty store) enqueues a
review entry for both rows. -/
theorem c9_duplicate_review_entries_in_one_run :
    (runRows "t" (initState []) [exRow, exRow]).map queueOutputs =
        Except.ok [{ product_ean := "E", reason := "new_product" },
                   { product_ean := "E", reason := "new_product" }] ∧
      (∀ (now : String) (s : SyncState) (row : FeedRecord) (p : Option Rat)
          (buffered : List ProductRow),
        (appendRow now { s with product_rows := buffered } row p).new_queue_rows =
          s.new_queue_rows ++ queueDelta s.store (eanOf row)) := by
  refine ⟨by decide, ?_⟩
  intro now s row p buffered
  rw [appendRow_eq]

/-- Invariant at the top of every loop iteration: each buffer is strictly
below its flush threshold. -/
def BuffersOk (s : SyncState) : Prop :=
  s.raw_rows.length < 500 ∧ s.product_rows.length < 500 ∧
    s.offer_rows.length < 500 ∧ s.new_queue_rows.length < 100

/-- A threshold-triggered flush carries exactly the threshold of its stream:
500 rows for raw, product and offer, 100 for the review queue. -/
def batchSizeOk : StoreEvent → Prop
  | StoreEvent.upsertRaw rs => rs.length = 500
  | StoreEvent.upsertProduct rs => rs.length = 500
  | StoreEvent.upsertOffer rs => rs.length = 500
  | StoreEvent.upsertQueue rs => rs.length = 100

lemma flushRaw_product_rows (s : SyncState) :
    (flushRaw s).product_rows = s.product_rows := by
  unfold flushRaw
  split <;> rfl

lemma flushRaw_offer_rows (s : SyncState) :
    (flushRaw s).offer_rows = s.offer_rows := by
  unfold flushRaw
  split <;> rfl

lemma flushRaw_new_queue_rows (s : SyncState) :
    (flushRaw s).new_queue_rows = s.new_queue_rows := by
  unfold flushRaw
  split <;> rfl

lemma flushRaw_store (s : SyncState) : (flushRaw s).store = s.store := by
  unfold flushRaw
  split <;> rfl

lemma flushProduct_raw_rows (s : SyncState) :
    (flushProduct s).raw_rows = s.raw_rows := by
  unfold flushProduct
  split <;> rfl

lemma flushProduct_offer_rows (s : SyncState) :
    (flushProduct s).offer_rows = s.offer_rows := by
  unfold flushProduct
  split <;> rfl

lemma flushProduct_new_queue_rows (s : SyncState) :
    (flushProduct s).new_queue_rows = s.new_queue_rows := by
  unfold flushProduct
  split <;> rfl

lemma flushOffer_raw_rows (s : SyncState) :
    (flushOffer s).raw_rows = s.raw_rows := by
  unfold flushOffer
  split <;> rfl

lemma flushOffer_product_rows (s : SyncState) :
    (flushOffer s).product_rows = s.product_rows := by
  unfold flushOffer
  split <;> rfl

lemma flushOffer_new_queue_rows (s : SyncState) :
    (flushOffer s).new_queue_rows = s.new_queue_rows := by
  unfold flushOffer
  split <;> rfl

lemma flushOffer_store (s : SyncState) : (flushOffer s).store = s.store := by
  unfold flushOffer
  split <;> rfl

lemma flushQueue_raw_rows (s : SyncState) :
    (flushQueue s).raw_rows = s.raw_rows := by
  unfold flushQueue
  split <;> rfl

lemma flushQueue_product_rows (s : SyncState) :
    (flushQueue s).product_rows = s.product_rows := by
  unfold flushQueue
  split <;> rfl

lemma flushQueue_offer_rows (s : SyncState) :
    (flushQueue s).offer_rows = s.offer_rows := by
  unfold flushQueue
  split <;> rfl

lemma flushQueue_store (s : SyncState) : (flushQueue s).store = s.store := by
  unfold flushQueue
  split <;> rfl

lemma flushRaw_raw_lt {s : SyncState} (h : s.raw_rows.length ≤ 500) :
    (flushRaw s).raw_rows.length < 500 := by
  by_cases hr : 500 ≤ s.raw_rows.length
  · rw [flushRaw_of_ge hr]
    simp
  · rw [flushRaw_of_lt (by omega)]
    omega

lemma flushProduct_product_lt {s : SyncState} (h : s.product_rows.length ≤ 500) :
    (flushProduct s).product_rows.length < 500 := by
  by_cases hr : 500 ≤ s.product_rows.length
  · rw [flushProduct_of_ge hr]
    simp
  · rw [flushProduct_of_lt (by omega)]
    omega

lemma flushOffer_offer_lt {s : SyncState} (h : s.offer_rows.length ≤ 500) :
    (flushOffer s).offer_rows.length < 500 := by
  by_cases hr : 500 ≤ s.offer_rows.length
  · rw [flushOffer_of_ge hr]
    simp
  · rw [flushOffer_of_lt (by omega)]
    omega

lemma flushQueue_queue_lt {s : SyncState} (h : s.new_queue_rows.length ≤ 100) :
    (flushQueue s).new_queue_rows.length < 100 := by
  by_cases hr : 100 ≤ s.new_queue_rows.length
  · rw [flushQueue_of_ge hr]
    simp
  · rw [flushQueue_of_lt (by omega)]
    omega

lemma flushRaw_trace_mem {s : SyncState} (h : s.raw_rows.length ≤ 500) :
    ∀ e ∈ (flushRaw s).trace, e ∈ s.trace ∨ batchSizeOk e := by
  intro e he
  by_cases hr : 500 ≤ s.raw_rows.length
  · rw [flushRaw_of_ge hr] at he
    rcases List.mem_append.mp he with h1 | h2
    · exact Or.inl h1
    · rcases List.mem_singleton.mp h2 with rfl
      right
      show s.raw_rows.length = 500
      omega
  · rw [flushRaw_of_lt (by omega)] at he
    exact Or.inl he

lemma flushProduct_trace_mem {s : SyncState} (h : s.product_rows.length ≤ 500) :
    ∀ e ∈ (flushProduct s).trace, e ∈ s.trace ∨ batchSizeOk e := by
  intro e he
  by_cases hr : 500 ≤ s.product_rows.length
  · rw [flushProduct_of_ge hr] at he
    rcases List.mem_append.mp he with h1 | h2
    · exact Or.inl h1
    · rcases List.mem_singleton.mp h2 with rfl
      right
      show s.product_rows.length = 500
      omega
  · rw [flushProduct_of_lt (by omega)] at he
    exact Or.inl he

lemma flushOffer_trace_mem {s : SyncState} (h : s.offer_rows.length ≤ 500) :
    ∀ e ∈ (flushOffer s).trace, e ∈ s.trace ∨ batchSizeOk e := by
  intro e he
  by_cases hr : 500 ≤ s.offer_rows.length
  · rw [flushOffer_of_ge hr] at he
    rcases List.mem_append.mp he with h1 | h2
    · exact Or.inl h1
    · rcases List.mem_singleton.mp h2 with rfl
      right
      show s.offer_rows.length = 500
      omega
  · rw [flushOffer_of_lt (by omega)] at he
    exact Or.inl he

lemma flushQueue_trace_mem {s : SyncState} (h : s.new_queue_rows.length ≤ 100) :
    ∀ e ∈ (flushQueue s).trace, e ∈ s.trace ∨ batchSizeOk e := by
  intro e he
  by_cases hr : 100 ≤ s.new_queue_rows.length
  · rw [flushQueue_of_ge hr] at he
    rcases List.mem_append.mp he with h1 | h2
    · exact Or.inl h1
    · rcases List.mem_singleton.mp h2 with rfl
      right
      show s.new_queue_rows.length = 100
      omega
  · rw [flushQueue_of_lt (by omega)] at he
    exact Or.inl he

/-- Starting at or below the thresholds (as after one append from a
below-threshold state), the flush pass leaves every buffer strictly below
its threshold and emits only exactly-threshold-sized batches. -/
lemma flushStep_spec {s : SyncState} (h1 : s.raw_rows.length ≤ 500)
    (h2 : s.product_rows.length ≤ 500) (h3 : s.offer_rows.length ≤ 500)
    (h4 : s.new_queue_rows.length ≤ 100) :
    BuffersOk (flushStep s) ∧
      ∀ e ∈ (flushStep s).trace, e ∈ s.trace ∨ batchSizeOk e := by
  unfold flushStep
  constructor
  · refine ⟨?_, ?_, ?_, ?_⟩
    · rw [flushQueue_raw_rows, flushOffer_raw_rows, flushProduct_raw_rows]
      exact flushRaw_raw_lt h1
    · rw [flushQueue_product_rows, flushOffer_product_rows]
      exact flushProduct_product_lt (by rw [flushRaw_product_rows]; exact h2)
    · rw [flushQueue_offer_rows]
      exact flushOffer_offer_lt
        (by rw [flushProduct_offer_rows, flushRaw_offer_rows]; exact h3)
    · exact flushQueue_queue_lt (by
        rw [flushOffer_new_queue_rows, flushProduct_new_queue_rows,
          flushRaw_new_queue_rows]
        exact h4)
  · intro e he
    rcases flushQueue_trace_mem (by
        rw [flushOffer_new_queue_rows, flushProduct_new_queue_rows,
          flushRaw_new_queue_rows]
        exact h4) e he with he1 | hsz
    · rcases flushOffer_trace_mem (by
          rw [flushProduct_offer_rows, flushRaw_offer_rows]
          exact h3) e he1 with he2 | hsz
      · rcases flushProduct_trace_mem (by
            rw [flushRaw_product_rows]
            exact h2) e he2 with he3 | hsz
        · rcases flushRaw_trace_mem h1 e he3 with he4 | hsz
          · exact Or.inl he4
          · exact Or.inr hsz
        · exact Or.inr hsz
      · exact Or.inr hsz
    · exact Or.inr hsz

lemma queueDelta_length_le (store : List String) (ean : String) :
    (queueDelta store ean).length ≤ 1 := by
  unfold queueDelta
  split <;> simp

/-- One successful loop iteration preserves the below-threshold invariant
and only ever emits exactly-threshold-sized batches. -/
lemma processRow_preserves {now : String} {s : SyncState} {row : FeedRecord}
    {s₂ : SyncState} (hb : BuffersOk s) (h : processRow now s row = Except.ok s₂) :
    BuffersOk s₂ ∧ ∀ e ∈ s₂.trace, e ∈ s.trace ∨ batchSizeOk e := by
  obtain ⟨hb1, hb2, hb3, hb4⟩ := hb
  rcases processRow_ok_inv h with ⟨_, hs⟩ | ⟨he, p, hp, hs⟩
  · rw [hs]
    exact ⟨⟨hb1, hb2, hb3, hb4⟩, fun e he => Or.inl he⟩
  · rw [hs]
    have hd := queueDelta_length_le s.store (eanOf row)
    have happ := appendRow_eq now { s with count := s.count + 1 } row p
    have ha1 : (appendRow now { s with count := s.count + 1 } row p).raw_rows.length ≤ 500 := by
      rw [happ]
      simp
      omega
    have ha2 : (appendRow now { s with count := s.count + 1 } row p).product_rows.length ≤ 500 := by
      rw [happ]
      simp
      omega
    have ha3 : (appendRow now { s with count := s.count + 1 } row p).offer_rows.length ≤ 500 := by
      rw [happ]
      simp
      omega
    have ha4 : (appendRow now { s with count := s.count + 1 } row p).new_queue_rows.length ≤ 100 := by
      rw [happ]
      simp
      omega
    obtain ⟨hbOk, hmem⟩ := flushStep_spec ha1 ha2 ha3 ha4
    refine ⟨hbOk, ?_⟩
    intro e he2
    rcases hmem e he2 with hin | hsz
    · rw [happ] at hin
      exact Or.inl hin
    · exact Or.inr hsz

/-- The whole loop preserves the invariant; every event written during the
loop is an exactly-threshold-sized batch. -/
lemma processAll_preserves (now : String) (rows : List FeedRecord) :
    ∀ (s s₂ : SyncState), BuffersOk s → processAll now s rows = Except.ok s₂ →
      BuffersOk s₂ ∧ ∀ e ∈ s₂.trace, e ∈ s.trace ∨ batchSizeOk e := by
  induction rows with
  | nil =>
    intro s s₂ hb h
    cases h
    exact ⟨hb, fun e he => Or.inl he⟩
  | cons row rest ih =>
    intro s s₂ hb h
    cases hpr : processRow now s row with
    | error e =>
      simp only [processAll, hpr] at h
      cases h
    | ok s₁ =>
      simp only [processAll, hpr] at h
      obtain ⟨hb1, hmem1⟩ := processRow_preserves hb hpr
      obtain ⟨hb2, hmem2⟩ := ih s₁ s₂ hb1 h
      refine ⟨hb2, ?_⟩
      intro e he
      rcases hmem2 e he with h1 | hsz
      · exact hmem1 e h1
      · exact Or.inr hsz

/-- C10: the initial buffers satisfy the below-threshold invariant, every
successful iteration preserves it (so it holds at the start of every loop
iteration), and consequently every threshold-triggered flush during the
loop sends a batch of exactly 500 rows (exactly 100 for the review
queue); only the final end-of-stream flush may send fewer. -/
theorem c10_loop_invariant_and_exact_batches :
    (∀ store : List String, BuffersOk (initState store)) ∧
    (∀ (now : String) (s : SyncState) (row : FeedRecord) (s₂ : SyncState),
      BuffersOk s → processRow now s row = Except.ok s₂ →
      BuffersOk s₂ ∧ ∀ e ∈ s₂.trace, e ∈ s.trace ∨ batchSizeOk e) ∧
    (∀ (now : String) (store : List String) (rows : List FeedRecord)
        (s₂ : SyncState),
      processAll now (initState store) rows = Except.ok s₂ →
      BuffersOk s₂ ∧ ∀ e ∈ s₂.trace, batchSizeOk e) := by
  refine ⟨?_, ?_, ?_⟩
  · intro store
    exact ⟨by simp [initState], by simp [initState], by simp [initState],
      by simp [initState]⟩
  · intro now s row s₂ hb h
    exact processRow_preserves hb h
  · intro now store rows s₂ h
    obtain ⟨hb2, hmem⟩ := processAll_preserves now rows (initState store) s₂
      ⟨by simp [initState], by simp [initState], by simp [initState],
        by simp [initState]⟩ h
    refine ⟨hb2, ?_⟩
    intro e he
    rcases hmem e he with h1 | hsz
    · simp [initState] at h1
    · exact hsz

/-- C10 witness: after one processed row the invariant still holds. -/
theorem c10_witness : BuffersOk exS1 :=
  (c10_loop_invariant_and_exact_batches.2.2 "t" [] [exRow] exS1 (by decide)).1

/-- Lengths of the raw-snapshot batches in a trace, in write order. -/
def rawBatchSizes (tr : List StoreEvent) : List Nat :=
  tr.filterMap (fun e => match e with
    | StoreEvent.upsertRaw rs => some rs.length
    | _ => none)

lemma rawBatchSizes_raw (rs : List RawRow) :
    rawBatchSizes [StoreEvent.upsertRaw rs] = [rs.length] := rfl

lemma rawBatchSizes_product (rs : List ProductRow) :
    rawBatchSizes [StoreEvent.upsertProduct rs] = [] := rfl

lemma rawBatchSizes_offer (rs : List OfferRow) :
    rawBatchSizes [StoreEvent.upsertOffer rs] = [] := rfl

lemma rawBatchSizes_nil : rawBatchSizes [] = [] := rfl

lemma rawBatchSizes_append (t₁ t₂ : List StoreEvent) :
    rawBatchSizes (t₁ ++ t₂) = rawBatchSizes t₁ ++ rawBatchSizes t₂ := by
  unfold rawBatchSizes
  exact List.filterMap_append t₁ t₂ _

lemma flushStep_small {s : SyncState} (h1 : s.raw_rows.length < 500)
    (h2 : s.product_rows.length < 500) (h3 : s.offer_rows.length < 500)
    (h4 : s.new_queue_rows.length < 100) : flushStep s = s := by
  unfold flushStep
  rw [flushRaw_of_lt h1, flushProduct_of_lt h2, flushOffer_of_lt h3,
    flushQueue_of_lt h4]

lemma queueDelta_of_mem (store : List String) (ean : String) (h : ean ∈ store) :
    queueDelta store ean = [] := by
  cases hsel : supabase_select_one store ean with
  | none =>
    rw [select_one_eq_none_iff] at hsel
    exact absurd h hsel
  | some x =>
    unfold queueDelta
    rw [hsel]

lemma processAll_cons (now : String) (s : SyncState) (row : FeedRecord)
    (rest : List FeedRecord) {s₁ : SyncState}
    (h : processRow now s row = Except.ok s₁) :
    processAll now s (row :: rest) = processAll now s₁ rest := by
  simp only [processAll, h]

/-- Running the loop on `n` copies of `exRow` from a state whose three
row-aligned buffers hold `b < 500` rows each, an empty queue buffer, and a
store already holding `E`: the loop succeeds, flushes the raw buffer in
batches of exactly 500 — one per 500 rows accumulated — and leaves
`(b + n) % 500` rows buffered. -/
lemma processAll_replicate_exRow : ∀ (n : Nat) (s : SyncState),
    s.raw_rows.length < 500 →
    s.product_rows.length = s.raw_rows.length →
    s.offer_rows.length = s.raw_rows.length →
    s.new_queue_rows = [] →
    "E" ∈ s.store →
    ∃ s₂, processAll "t" s (List.replicate n exRow) = Except.ok s₂ ∧
      s₂.raw_rows.length = (s.raw_rows.length + n) % 500 ∧
      s₂.product_rows.length = s₂.raw_rows.length ∧
      s₂.offer_rows.length = s₂.raw_rows.length ∧
      s₂.new_queue_rows = [] ∧
      rawBatchSizes s₂.trace = rawBatchSizes s.trace ++
        List.replicate ((s.raw_rows.length + n) / 500) 500 := by
  intro n
  induction n with
  | zero =>
    intro s hlt hp ho hq hst
    refine ⟨s, rfl, ?_, hp, ho, hq, ?_⟩
    · simp [Nat.mod_eq_of_lt hlt]
    · simp [Nat.div_eq_of_lt hlt]
  | succ n ih =>
    intro s hlt hp ho hq hst
    have hgo : processRow "t" s exRow =
        Except.ok (flushStep (appendRow "t" { s with count := s.count + 1 } exRow none)) :=
      processRow_go (by decide) (by decide)
    set a := appendRow "t" { s with count := s.count + 1 } exRow none with ha
    have happ := appendRow_eq "t" { s with count := s.count + 1 } exRow none
    have haraw : a.raw_rows = s.raw_rows ++ [rawRowOf exRow] := by
      rw [ha, happ]
    have haprod : a.product_rows = s.product_rows ++ [productRowOf "t" exRow] := by
      rw [ha, happ]
    have haoff : a.offer_rows = s.offer_rows ++ [offerRowOf "t" exRow none] := by
      rw [ha, happ]
    have haq : a.new_queue_rows = [] := by
      rw [ha, happ]
      show s.new_queue_rows ++ queueDelta s.store (eanOf exRow) = []
      rw [hq, queueDelta_of_mem s.store (eanOf exRow) hst]
      rfl
    have hastore : a.store = s.store := by
      rw [ha, happ]
    have hatrace : a.trace = s.trace := by
      rw [ha, happ]
    have hlenraw : a.raw_rows.length = s.raw_rows.length + 1 := by
      rw [haraw]
      simp
    have hlenprod : a.product_rows.length = s.raw_rows.length + 1 := by
      rw [haprod]
      simp [hp]
    have hlenoff : a.offer_rows.length = s.raw_rows.length + 1 := by
      rw [haoff]
      simp [ho]
    by_cases hcase : s.raw_rows.length + 1 < 500
    · have hsm4 : a.new_queue_rows.length < 100 := by
        rw [haq]
        simp
      have hsmall : flushStep a = a :=
        flushStep_small (by omega) (by omega) (by omega) hsm4
      obtain ⟨s₂, hrun, e1, e2, e3, e4, e5⟩ := ih a (by omega) (by omega) (by omega)
        haq (by rw [hastore]; exact hst)
      have hgo2 : processRow "t" s exRow = Except.ok a := by
        rw [hgo, hsmall]
      refine ⟨s₂, ?_, ?_, e2, e3, e4, ?_⟩
      · rw [List.replicate_succ, processAll_cons _ _ _ _ hgo2]
        exact hrun
      · rw [e1]
        omega
      · have hdiv : (a.raw_rows.length + n) / 500 =
            (s.raw_rows.length + (n + 1)) / 500 := by
          omega
        rw [e5, hatrace, hdiv]
    · have hge : 500 ≤ a.raw_rows.length := by
        omega
      have h500 : a.raw_rows.length = 500 := by
        omega
      have hWP : 500 ≤ (flushRaw a).product_rows.length := by
        rw [flushRaw_product_rows]
        omega
      have hZO : 500 ≤ (flushProduct (flushRaw a)).offer_rows.length := by
        rw [flushProduct_offer_rows, flushRaw_offer_rows]
        omega
      have hYq : (flushOffer (flushProduct (flushRaw a))).new_queue_rows = [] := by
        rw [flushOffer_new_queue_rows, flushProduct_new_queue_rows,
          flushRaw_new_queue_rows, haq]
      have hYqlt :
          (flushOffer (flushProduct (flushRaw a))).new_queue_rows.length < 100 := by
        rw [hYq]
        simp
      set sN := flushStep a with hsN
      have hsNeq : sN = flushOffer (flushProduct (flushRaw a)) := by
        rw [hsN]
        unfold flushStep
        exact flushQueue_of_lt hYqlt
      have f1 : sN.raw_rows = [] := by
        rw [hsNeq, flushOffer_raw_rows, flushProduct_raw_rows, flushRaw_of_ge hge]
      have f2 : sN.product_rows = [] := by
        rw [hsNeq, flushOffer_product_rows, flushProduct_of_ge hWP]
      have f3 : sN.offer_rows = [] := by
        rw [hsNeq, flushOffer_of_ge hZO]
      have f4 : sN.new_queue_rows = [] := by
        rw [hsNeq]
        exact hYq
      have f5 : sN.store = a.store ++ a.product_rows.map (fun p => p.ean) := by
        rw [hsNeq, flushOffer_store, flushProduct_of_ge hWP]
        simp only [flushRaw_store, flushRaw_product_rows]
      have f6 : sN.trace = ((a.trace ++ [StoreEvent.upsertRaw a.raw_rows]) ++
          [StoreEvent.upsertProduct a.product_rows]) ++
          [StoreEvent.upsertOffer a.offer_rows] := by
        rw [hsNeq, flushOffer_of_ge hZO, flushProduct_of_ge hWP, flushRaw_of_ge hge]
      have hlen0 : sN.raw_rows.length = 0 := by
        rw [f1]
        rfl
      have hstN : "E" ∈ sN.store := by
        rw [f5, hastore]
        exact List.mem_append_left _ hst
      obtain ⟨s₂, hrun, e1, e2, e3, e4, e5⟩ := ih sN (by omega)
        (by rw [f2, f1]; rfl) (by rw [f3, f1]; rfl) f4 hstN
      have hgo2 : processRow "t" s exRow = Except.ok sN := by
        rw [hgo, hsN]
      refine ⟨s₂, ?_, ?_, e2, e3, e4, ?_⟩
      · rw [List.replicate_succ, processAll_cons _ _ _ _ hgo2]
        exact hrun
      · rw [e1]
        omega
      · have hdiv : (s.raw_rows.length + (n + 1)) / 500 = n / 500 + 1 := by
          omega
        rw [e5, f6, hlen0, hdiv]
        rw [rawBatchSizes_append, rawBatchSizes_append, rawBatchSizes_append, hatrace]
        simp [rawBatchSizes, h500, List.replicate_succ, List.append_assoc]

/-- State with a raw buffer exactly at its threshold, for the witness. -/
def bigRawS : SyncState :=
  { store := [], new_queue_rows := [], product_rows := [], offer_rows := []
    raw_rows := List.replicate 500 (rawRowOf exRow), count := 500, trace := [] }

/-- C5: each buffer flushes independently exactly when its own length
reaches its own threshold (500 for raw, product and offer, 100 for the
review queue) and is cleared by the flush; and feeding 501 records into
the raw-snapshot stream triggers exactly one threshold flush, of exactly
500 rows, leaves 1 row buffered, and the final flush then sends that
remaining 1 row. -/
theorem c5_independent_thresholds_and_501_scenario :
    (∀ s : SyncState, 500 ≤ s.raw_rows.length →
      flushRaw s = { s with trace := s.trace ++ [StoreEvent.upsertRaw s.raw_rows]
                            raw_rows := [] }) ∧
    (∀ s : SyncState, s.raw_rows.length < 500 → flushRaw s = s) ∧
    (∀ s : SyncState, 500 ≤ s.product_rows.length →
      flushProduct s = { s with
        trace := s.trace ++ [StoreEvent.upsertProduct s.product_rows]
        store := s.store ++ s.product_rows.map (fun p => p.ean)
        product_rows := [] }) ∧
    (∀ s : SyncState, s.product_rows.length < 500 → flushProduct s = s) ∧
    (∀ s : SyncState, 500 ≤ s.offer_rows.length →
      flushOffer s = { s with trace := s.trace ++ [StoreEvent.upsertOffer s.offer_rows]
                              offer_rows := [] }) ∧
    (∀ s : SyncState, s.offer_rows.length < 500 → flushOffer s = s) ∧
    (∀ s : SyncState, 100 ≤ s.new_queue_rows.length →
      flushQueue s = { s with trace := s.trace ++ [StoreEvent.upsertQueue s.new_queue_rows]
                              new_queue_rows := [] }) ∧
    (∀ s : SyncState, s.new_queue_rows.length < 100 → flushQueue s = s) ∧
    (∃ sl, processAll "t" (initState ["E"]) (List.replicate 501 exRow) = Except.ok sl ∧
      rawBatchSizes sl.trace = [500] ∧ sl.raw_rows.length = 1) ∧
    (∃ sf, runRows "t" (initState ["E"]) (List.replicate 501 exRow) = Except.ok sf ∧
      rawBatchSizes sf.trace = [500, 1] ∧ sf.raw_rows = []) := by
  obtain ⟨sl, hrun, e1, e2, e3, e4, e5⟩ := processAll_replicate_exRow 501
    (initState ["E"]) (by simp [initState]) rfl rfl rfl (by simp [initState])
  have hL : sl.raw_rows.length = 1 := by
    rw [e1]
    decide
  have hE5 : rawBatchSizes sl.trace = [500] := by
    rw [e5]
    decide
  have hLp : sl.product_rows.length = 1 := by
    rw [e2, hL]
  have hLo : sl.offer_rows.length = 1 := by
    rw [e3, hL]
  have hrne : sl.raw_rows ≠ [] := by
    intro hnil
    rw [hnil] at hL
    cases hL
  have hpne : sl.product_rows ≠ [] := by
    intro hnil
    rw [hnil] at hLp
    cases hLp
  have hone : sl.offer_rows ≠ [] := by
    intro hnil
    rw [hnil] at hLo
    cases hLo
  refine ⟨fun s h => flushRaw_of_ge h, fun s h => flushRaw_of_lt h,
    fun s h => flushProduct_of_ge h, fun s h => flushProduct_of_lt h,
    fun s h => flushOffer_of_ge h, fun s h => flushOffer_of_lt h,
    fun s h => flushQueue_of_ge h, fun s h => flushQueue_of_lt h,
    ⟨sl, hrun, hE5, hL⟩, ⟨finalFlush sl, ?_, ?_, rfl⟩⟩
  · show (processAll "t" (initState ["E"]) (List.replicate 501 exRow)).map finalFlush = _
    rw [hrun]
    rfl
  · have htr : (finalFlush sl).trace = sl.trace
        ++ supabase_upsert StoreEvent.upsertRaw sl.raw_rows
        ++ supabase_upsert StoreEvent.upsertProduct sl.product_rows
        ++ supabase_upsert StoreEvent.upsertOffer sl.offer_rows
        ++ supabase_upsert StoreEvent.upsertQueue sl.new_queue_rows := rfl
    rw [htr, supabase_upsert_ne_nil _ _ hrne, supabase_upsert_ne_nil _ _ hpne,
      supabase_upsert_ne_nil _ _ hone, e4, supabase_upsert_nil,
      rawBatchSizes_append, rawBatchSizes_append, rawBatchSizes_append,
      rawBatchSizes_append, hE5, rawBatchSizes_raw, rawBatchSizes_product,
      rawBatchSizes_offer, rawBatchSizes_nil, hL]
    rfl

set_option maxRecDepth 8000 in
/-- C5 witness: the threshold equations applied to a buffer of exactly 500
rows and to the empty initial buffers. -/
theorem c5_witness :
    flushRaw bigRawS = { bigRawS with
        trace := bigRawS.trace ++ [StoreEvent.upsertRaw bigRawS.raw_rows]
        raw_rows := [] } ∧
      flushRaw (initState []) = initState [] ∧
      flushQueue (initState []) = initState [] :=
  ⟨c5_independent_thresholds_and_501_scenario.1 bigRawS (by decide),
    c5_independent_thresholds_and_501_scenario.2.1 (initState []) (by decide),
    c5_independent_thresholds_and_501_scenario.2.2.2.2.2.2.2.1 (initState []) (by decide)⟩

end Importer
